import Mathlib

/-!
Verification of the parking-resource allocation core
(`sim/src/mechanics/parking.rs`).

The Rust code is shallowly embedded: `BTreeMap`s become association lists
(insert = bind-in-front after erasing the key, so lookups behave like
function updates), `BTreeSet`s become lists, `Distance` becomes `ℚ`, and
every Rust panic (`unwrap`, `assert!`, indexing) becomes `none` of an
`Option`-valued result.  The external `map_model` crate is not part of the
sources; its interface is modelled from the spec as the `Map` structure
below.
-/

abbrev CarID := Nat
abbrev LaneID := Nat
abbrev BuildingID := Nat
abbrev ParkingLotID := Nat
abbrev PersonID := Nat

/-- The three kinds of parking spots, as in `ParkingSpot` of the sim crate. -/
inductive ParkingSpot where
  | Onstreet (lane : LaneID) (idx : Nat)
  | Offstreet (bldg : BuildingID) (idx : Nat)
  | Lot (lot : ParkingLotID) (idx : Nat)
deriving DecidableEq, Repr

/-- A vehicle: id, optional owner, physical length (`Vehicle` in the sim crate). -/
structure Vehicle where
  id : CarID
  owner : Option PersonID
  length : ℚ
deriving DecidableEq, Repr

/-- A parked car record (`ParkedCar`). -/
structure ParkedCar where
  vehicle : Vehicle
  spot : ParkingSpot
deriving DecidableEq, Repr

/-- The two domain events emitted by the ledger. -/
inductive Event where
  | CarReachedParkingSpot (car : CarID) (spot : ParkingSpot)
  | CarLeftParkingSpot (car : CarID) (spot : ParkingSpot)
deriving DecidableEq, Repr

/-- Modelled from the spec: a lane-relative point (`Position` of map_model),
a lane id plus a distance along that lane. -/
structure Position where
  lane : LaneID
  dist_along : ℚ
deriving DecidableEq, Repr

/-- Modelled from the spec: lane types of the external map provider; only
`Parking` is inspected by this core. -/
inductive LaneType where
  | Driving
  | Parking
  | Sidewalk
  | Other
deriving DecidableEq, Repr

/-- Modelled from the spec: the lane record of the external map provider.
`parking_to_driving` is `map.get_parent(l).parking_to_driving(l, map)` and
`closest_walkable` is `find_closest_lane(l, is_walkable)`, both folded into
the lane record since the road topology itself is out of scope. -/
structure Lane where
  id : LaneID
  lane_type : LaneType
  driving_blackhole : Bool
  length : ℚ
  number_parking_spots : Nat
  parking_to_driving : Option LaneID
  closest_walkable : Option LaneID
deriving DecidableEq, Repr

/-- Modelled from the spec: a building's offstreet parking kind
(`OffstreetParking` of map_model); the code only matches on `Private`. -/
inductive OffstreetParking where
  | PublicGarage (spots : Nat)
  | Private (spots : Nat) (garage : Bool)
deriving DecidableEq, Repr

/-- Modelled from the spec: the building record of the external map provider. -/
structure Building where
  id : BuildingID
  parking : OffstreetParking
  driving_connection : Option Position
  sidewalk_pos : Position
deriving DecidableEq, Repr

/-- `Building::num_parking_spots`, reading the capacity out of the parking kind. -/
def Building.num_parking_spots (b : Building) : Nat :=
  match b.parking with
  | OffstreetParking.PublicGarage n => n
  | OffstreetParking.Private n _ => n

/-- Modelled from the spec: the parking-lot record of the external map provider. -/
structure ParkingLot where
  id : ParkingLotID
  capacity : Nat
  driving_pos : Position
  sidewalk_pos : Position
deriving DecidableEq, Repr

/-- A turn id: source and destination lanes (`TurnID` of map_model). -/
structure TurnID where
  src : LaneID
  dst : LaneID
deriving DecidableEq, Repr

/-- Modelled from the spec: a turn with the length of its geometry. All turns
in the model are car-traversable (`PathConstraints::Car`). -/
structure Turn where
  id : TurnID
  geom_length : ℚ
deriving DecidableEq, Repr

/-- One step of a returned path (`PathStep`). -/
inductive PathStep where
  | Lane (l : LaneID)
  | Turn (t : TurnID)
deriving DecidableEq, Repr

/-- Modelled from the spec: the external map provider, reduced to the queries
this core consumes.  `equiv_pos` and `equiv_pos_for_long_object` are the
geometric projection helpers of map_model (project a lane-relative position
onto another lane, the latter accounting for a long vehicle). -/
structure Map where
  lanes : List Lane
  buildings : List Building
  lots : List ParkingLot
  turns : List Turn
  equiv_pos : Position → LaneID → Position
  equiv_pos_for_long_object : Position → LaneID → ℚ → Position

def Map.get_l (m : Map) (l : LaneID) : Option Lane :=
  m.lanes.find? (fun x => decide (x.id = l))

def Map.get_b (m : Map) (b : BuildingID) : Option Building :=
  m.buildings.find? (fun x => decide (x.id = b))

def Map.get_pl (m : Map) (pl : ParkingLotID) : Option ParkingLot :=
  m.lots.find? (fun x => decide (x.id = pl))

/-- `map.get_turns_for(l, PathConstraints::Car)`: car turns leaving lane `l`. -/
def Map.get_turns_for (m : Map) (l : LaneID) : List Turn :=
  m.turns.filter (fun t => decide (t.id.src = l))

/-- Modelled from the spec: `map_model::PARKING_SPOT_LENGTH`, the fixed length
of one onstreet parking spot (8 meters in the external crate). -/
def PARKING_SPOT_LENGTH : ℚ := 8

/-- Association-list lookup, the shallow embedding of `BTreeMap::get`. -/
def alookup {α β : Type} [DecidableEq α] : List (α × β) → α → Option β
  | [], _ => none
  | (k, v) :: rest, key => if key = k then some v else alookup rest key

/-- Erase every binding of a key, the shallow embedding of `BTreeMap::remove`. -/
def aerase {α β : Type} [DecidableEq α] (m : List (α × β)) (key : α) : List (α × β) :=
  m.filter (fun kv => !(decide (kv.1 = key)))

/-- Overwriting insert, the shallow embedding of `BTreeMap::insert`. -/
def ainsert {α β : Type} [DecidableEq α] (m : List (α × β)) (key : α) (v : β) :
    List (α × β) :=
  (key, v) :: aerase m key

/-- All values bound to a key, the shallow embedding of `MultiMap::get`. -/
def mmGet {α β : Type} [DecidableEq α] (m : List (α × β)) (k : α) : List β :=
  (m.filter (fun kv => decide (kv.1 = k))).map (fun kv => kv.2)

/-- The per-parking-lane record (`ParkingLane` in parking.rs). -/
structure ParkingLane where
  parking_lane : LaneID
  driving_lane : LaneID
  sidewalk : LaneID
  spot_dist_along : List ℚ
deriving DecidableEq, Repr

/-- `ParkingLane::new`.  Outer `none` is the fatal panic (a parking lane with
no driving-lane binding), inner `none` is the silent skip (not a parking
lane, blackholed driving lane, or no sidewalk). -/
def ParkingLane.new (lane : Lane) (map : Map) : Option (Option ParkingLane) :=
  if lane.lane_type ≠ LaneType.Parking then some none
  else
    match lane.parking_to_driving with
    | none => none
    | some driving_lane =>
      match map.get_l driving_lane with
      | none => none
      | some dl =>
        if dl.driving_blackhole then some none
        else
          match lane.closest_walkable with
          | none => some none
          | some sidewalk =>
            some (some
              { parking_lane := lane.id
                driving_lane := driving_lane
                sidewalk := sidewalk
                spot_dist_along :=
                  (List.range lane.number_parking_spots).map
                    (fun idx => PARKING_SPOT_LENGTH * (2 + (idx : ℚ))) })

/-- `ParkingLane::dist_along_for_car`: center the car in its spot.  `none`
models the index-out-of-bounds panic. -/
def ParkingLane.dist_along_for_car (pl : ParkingLane) (spot_idx : Nat)
    (vehicle : Vehicle) : Option ℚ :=
  (pl.spot_dist_along.get? spot_idx).map
    (fun d => d - (PARKING_SPOT_LENGTH - vehicle.length) / 2)

/-- `ParkingLane::spots`. -/
def ParkingLane.spots (pl : ParkingLane) : List ParkingSpot :=
  (List.range pl.spot_dist_along.length).map
    (fun idx => ParkingSpot.Onstreet pl.parking_lane idx)

/-- The occupancy and reservation ledger plus spot inventory
(`ParkingSimState`). -/
structure ParkingSimState where
  parked_cars : List (CarID × ParkedCar)
  occupants : List (ParkingSpot × CarID)
  reserved_spots : List ParkingSpot
  onstreet_lanes : List (LaneID × ParkingLane)
  driving_to_parking_lanes : List (LaneID × LaneID)
  num_spots_per_offstreet : List (BuildingID × Nat)
  driving_to_offstreet : List (LaneID × (BuildingID × ℚ))
  num_spots_per_lot : List (ParkingLotID × Nat)
  driving_to_lots : List (LaneID × ParkingLotID)
  events : List Event
deriving DecidableEq, Repr

/-- The lane loop of `ParkingSimState::new`. -/
def buildOnstreet (map : Map) :
    List Lane → Option (List (LaneID × ParkingLane) × List (LaneID × LaneID))
  | [] => some ([], [])
  | l :: rest =>
    match ParkingLane.new l map with
    | none => none
    | some none => buildOnstreet map rest
    | some (some lane) =>
      match buildOnstreet map rest with
      | none => none
      | some (ons, d2p) =>
        some ((lane.parking_lane, lane) :: ons, (lane.driving_lane, l.id) :: d2p)

/-- The building loop of `ParkingSimState::new`. -/
def buildOffstreet (map : Map) :
    List Building → Option (List (BuildingID × Nat) × List (LaneID × (BuildingID × ℚ)))
  | [] => some ([], [])
  | b :: rest =>
    match buildOffstreet map rest with
    | none => none
    | some (nums, d2o) =>
      match b.driving_connection with
      | none => some (nums, d2o)
      | some pos =>
        match map.get_l pos.lane with
        | none => none
        | some lane =>
          if lane.driving_blackhole then some (nums, d2o)
          else if b.num_parking_spots > 0 then
            some ((b.id, b.num_parking_spots) :: nums,
              (pos.lane, (b.id, pos.dist_along)) :: d2o)
          else some (nums, d2o)

/-- The parking-lot loop of `ParkingSimState::new`. -/
def buildLots (map : Map) :
    List ParkingLot → Option (List (ParkingLotID × Nat) × List (LaneID × ParkingLotID))
  | [] => some ([], [])
  | pl :: rest =>
    match buildLots map rest with
    | none => none
    | some (nums, d2l) =>
      match map.get_l pl.driving_pos.lane with
      | none => none
      | some lane =>
        if lane.driving_blackhole then some (nums, d2l)
        else some ((pl.id, pl.capacity) :: nums, (pl.driving_pos.lane, pl.id) :: d2l)

/-- `ParkingSimState::new`: build the spot inventory from the map.  `none`
models the fatal configuration panic. -/
def ParkingSimState.new (map : Map) : Option ParkingSimState :=
  match buildOnstreet map map.lanes, buildOffstreet map map.buildings,
      buildLots map map.lots with
  | some (ons, d2p), some (numsOff, d2o), some (numsLot, d2l) =>
    some
      { parked_cars := []
        occupants := []
        reserved_spots := []
        onstreet_lanes := ons
        driving_to_parking_lanes := d2p
        num_spots_per_offstreet := numsOff
        driving_to_offstreet := d2o
        num_spots_per_lot := numsLot
        driving_to_lots := d2l
        events := [] }
  | _, _, _ => none

/-- `ParkingSimState::is_free`. -/
def is_free (s : ParkingSimState) (spot : ParkingSpot) : Bool :=
  (alookup s.occupants spot).isNone && !(decide (spot ∈ s.reserved_spots))

/-- `ParkingSimState::reserve_spot`.  `none` models the `assert!` panics
(spot not free, or index beyond the current capacity). -/
def reserve_spot (s : ParkingSimState) (spot : ParkingSpot) :
    Option ParkingSimState :=
  if is_free s spot then
    let s1 : ParkingSimState := { s with reserved_spots := spot :: s.reserved_spots }
    match spot with
    | ParkingSpot.Onstreet l idx =>
      match alookup s.onstreet_lanes l with
      | none => none
      | some lane => if idx < lane.spot_dist_along.length then some s1 else none
    | ParkingSpot.Offstreet b idx =>
      match alookup s.num_spots_per_offstreet b with
      | none => none
      | some n => if idx < n then some s1 else none
    | ParkingSpot.Lot pl idx =>
      match alookup s.num_spots_per_lot pl with
      | none => none
      | some n => if idx < n then some s1 else none
  else none

/-- `ParkingSimState::remove_parked_car`.  `none` models the `expect` panics. -/
def remove_parked_car (s : ParkingSimState) (p : ParkedCar) :
    Option ParkingSimState :=
  match alookup s.parked_cars p.vehicle.id with
  | none => none
  | some _ =>
    match alookup s.occupants p.spot with
    | none => none
    | some _ =>
      some
        { s with
          parked_cars := aerase s.parked_cars p.vehicle.id
          occupants := aerase s.occupants p.spot
          events := s.events ++ [Event.CarLeftParkingSpot p.vehicle.id p.spot] }

/-- `ParkingSimState::add_parked_car`.  The event is pushed before the
asserts, exactly as in the source; `none` models the `assert!` panics. -/
def add_parked_car (s : ParkingSimState) (p : ParkedCar) :
    Option ParkingSimState :=
  let s0 : ParkingSimState :=
    { s with events := s.events ++ [Event.CarReachedParkingSpot p.vehicle.id p.spot] }
  if p.spot ∈ s.reserved_spots then
    let s1 : ParkingSimState :=
      { s0 with reserved_spots := s0.reserved_spots.filter (fun x => !(decide (x = p.spot))) }
    if (alookup s.occupants p.spot).isSome then none
    else
      let s2 : ParkingSimState := { s1 with occupants := ainsert s1.occupants p.spot p.vehicle.id }
      if (alookup s.parked_cars p.vehicle.id).isSome then none
      else some { s2 with parked_cars := ainsert s2.parked_cars p.vehicle.id p }
  else none

/-- `ParkingSimState::get_car_at_spot`.  Outer `none` models the unguarded
`self.parked_cars[&car]` panic; the inner option is the Rust return value. -/
def get_car_at_spot (s : ParkingSimState) (spot : ParkingSpot) :
    Option (Option ParkedCar) :=
  match alookup s.occupants spot with
  | none => some none
  | some car => (alookup s.parked_cars car).map some

/-- `ParkingSimState::collect_events`: drain and return the event queue. -/
def collect_events (s : ParkingSimState) : List Event × ParkingSimState :=
  (s.events, { s with events := [] })

/-- The full spot list walked by `get_all_parking_spots`: onstreet lanes,
then offstreet buildings, then lots. -/
def allSpotsList (s : ParkingSimState) : List ParkingSpot :=
  (s.onstreet_lanes.foldr (fun kv acc => kv.2.spots ++ acc) []) ++
    (s.num_spots_per_offstreet.foldr
      (fun kv acc => (List.range kv.2).map (fun idx => ParkingSpot.Offstreet kv.1 idx) ++ acc) []) ++
    (s.num_spots_per_lot.foldr
      (fun kv acc => (List.range kv.2).map (fun idx => ParkingSpot.Lot kv.1 idx) ++ acc) [])

/-- `ParkingSimState::get_all_parking_spots`: `(filled, available)`. -/
def get_all_parking_spots (s : ParkingSimState) :
    List ParkingSpot × List ParkingSpot :=
  ((allSpotsList s).filter (fun spot => !(is_free s spot)),
    (allSpotsList s).filter (fun spot => is_free s spot))

/-- The eviction loop of `handle_live_edits`.  `none` models the two
`unwrap` panics (spot with no occupant, occupant with no parked record). -/
def evictLoop (avail : List ParkingSpot) :
    List ParkingSpot → ParkingSimState → List ParkedCar →
      Option (ParkingSimState × List ParkedCar)
  | [], s, acc => some (s, acc)
  | spot :: rest, s, acc =>
    if spot ∈ avail then evictLoop avail rest s acc
    else
      match alookup s.occupants spot with
      | none => none
      | some car =>
        match alookup s.parked_cars car with
        | none => none
        | some p =>
          evictLoop avail rest
            { s with
              occupants := aerase s.occupants spot
              parked_cars := aerase s.parked_cars car }
            (acc ++ [p])

/-- `ParkingSimState::handle_live_edits`: rebuild the inventory, evict the
occupants of vanished filled spots, and recompute `reserved_spots` as its
set difference with the new available set (the source calls
`difference`, not `intersection`).  `none` models any panic on the way. -/
def handle_live_edits (s : ParkingSimState) (map : Map) :
    Option (ParkingSimState × List ParkedCar) :=
  let filled_before := (get_all_parking_spots s).1
  match ParkingSimState.new map with
  | none => none
  | some newSim =>
    let avail_after := (get_all_parking_spots newSim).2
    let s1 : ParkingSimState :=
      { s with
        onstreet_lanes := newSim.onstreet_lanes
        driving_to_parking_lanes := newSim.driving_to_parking_lanes
        num_spots_per_offstreet := newSim.num_spots_per_offstreet
        driving_to_offstreet := newSim.driving_to_offstreet
        num_spots_per_lot := newSim.num_spots_per_lot
        driving_to_lots := newSim.driving_to_lots }
    match evictLoop avail_after filled_before s1 [] with
    | none => none
    | some (s2, evicted) =>
      some
        ({ s2 with
            reserved_spots :=
              s2.reserved_spots.filter (fun x => !(decide (x ∈ avail_after))) },
          evicted)

/-- `ParkingSimState::spot_to_driving_pos`.  `none` models the lookup and
`unwrap` panics. -/
def spot_to_driving_pos (s : ParkingSimState) (spot : ParkingSpot)
    (vehicle : Vehicle) (map : Map) : Option Position :=
  match spot with
  | ParkingSpot.Onstreet l idx =>
    match alookup s.onstreet_lanes l with
    | none => none
    | some lane =>
      match lane.dist_along_for_car idx vehicle with
      | none => none
      | some d =>
        some (map.equiv_pos_for_long_object { lane := l, dist_along := d }
          lane.driving_lane vehicle.length)
  | ParkingSpot.Offstreet b _ =>
    match map.get_b b with
    | none => none
    | some bb => bb.driving_connection
  | ParkingSpot.Lot pl _ => (map.get_pl pl).map (fun plot => plot.driving_pos)

/-- `ParkingSimState::spot_to_sidewalk_pos`: the onstreet position handed to
the sidewalk projection is the spot's midpoint, one half spot length behind
the spot's front distance. -/
def spot_to_sidewalk_pos (s : ParkingSimState) (spot : ParkingSpot) (map : Map) :
    Option Position :=
  match spot with
  | ParkingSpot.Onstreet l idx =>
    match alookup s.onstreet_lanes l with
    | none => none
    | some lane =>
      (lane.spot_dist_along.get? idx).map
        (fun d =>
          map.equiv_pos { lane := l, dist_along := d - PARKING_SPOT_LENGTH / 2 }
            lane.sidewalk)
  | ParkingSpot.Offstreet b _ => (map.get_b b).map (fun bb => bb.sidewalk_pos)
  | ParkingSpot.Lot pl _ => (map.get_pl pl).map (fun plot => plot.sidewalk_pos)

/-- The privacy filter of the offstreet loop in `get_all_free_spots`: skip a
private building unless it is the trip's target. -/
def offstreetSkip (parking : OffstreetParking) (b target : BuildingID) : Bool :=
  match parking with
  | OffstreetParking.Private _ _ => decide (target ≠ b)
  | _ => false

/-- The inner spot filter of the onstreet loop of `get_all_free_spots`:
free spots whose driving position is strictly ahead of the query. -/
def onstreetSpotFilter (s : ParkingSimState) (driving_pos : Position)
    (vehicle : Vehicle) (map : Map) : List ParkingSpot → Option (List ParkingSpot)
  | [] => some []
  | spot :: rest =>
    match onstreetSpotFilter s driving_pos vehicle map rest with
    | none => none
    | some tail =>
      if is_free s spot then
        match spot_to_driving_pos s spot vehicle map with
        | none => none
        | some pos =>
          if driving_pos.dist_along < pos.dist_along then some (spot :: tail)
          else some tail
      else some tail

/-- The onstreet loop of `get_all_free_spots`, over the parking lanes bound
to the querying driving lane. -/
def collectOnstreetLanes (s : ParkingSimState) (driving_pos : Position)
    (vehicle : Vehicle) (map : Map) : List LaneID → Option (List ParkingSpot)
  | [] => some []
  | l :: rest =>
    match alookup s.onstreet_lanes l with
    | none => none
    | some lane =>
      match onstreetSpotFilter s driving_pos vehicle map lane.spots with
      | none => none
      | some here =>
        match collectOnstreetLanes s driving_pos vehicle map rest with
        | none => none
        | some tail => some (here ++ tail)

/-- The offstreet loop of `get_all_free_spots`: privacy filter, then the
strictly-ahead check against the cached building distance. -/
def collectOffstreet (s : ParkingSimState) (driving_pos : Position)
    (target : BuildingID) (map : Map) :
    List (BuildingID × ℚ) → Option (List ParkingSpot)
  | [] => some []
  | (b, d) :: rest =>
    match map.get_b b with
    | none => none
    | some bb =>
      match collectOffstreet s driving_pos target map rest with
      | none => none
      | some tail =>
        if offstreetSkip bb.parking b target then some tail
        else if driving_pos.dist_along < d then
          match alookup s.num_spots_per_offstreet b with
          | none => none
          | some n =>
            some
              (((List.range n).filter
                  (fun idx => is_free s (ParkingSpot.Offstreet b idx))).map
                (fun idx => ParkingSpot.Offstreet b idx) ++ tail)
        else some tail

/-- The parking-lot loop of `get_all_free_spots`. -/
def collectLots (s : ParkingSimState) (driving_pos : Position) (map : Map) :
    List ParkingLotID → Option (List ParkingSpot)
  | [] => some []
  | pl :: rest =>
    match map.get_pl pl with
    | none => none
    | some plot =>
      match collectLots s driving_pos map rest with
      | none => none
      | some tail =>
        if driving_pos.dist_along < plot.driving_pos.dist_along then
          match alookup s.num_spots_per_lot pl with
          | none => none
          | some n =>
            some
              (((List.range n).filter
                  (fun idx => is_free s (ParkingSpot.Lot pl idx))).map
                (fun idx => ParkingSpot.Lot pl idx) ++ tail)
        else some tail

/-- The final pairing of `get_all_free_spots`: each candidate with its
projected driving position. -/
def pairWithPos (s : ParkingSimState) (vehicle : Vehicle) (map : Map) :
    List ParkingSpot → Option (List (ParkingSpot × Position))
  | [] => some []
  | sp :: rest =>
    match spot_to_driving_pos s sp vehicle map with
    | none => none
    | some pos =>
      match pairWithPos s vehicle map rest with
      | none => none
      | some tail => some ((sp, pos) :: tail)

/-- `ParkingSimState::get_all_free_spots`. -/
def get_all_free_spots (s : ParkingSimState) (driving_pos : Position)
    (vehicle : Vehicle) (target : BuildingID) (map : Map) :
    Option (List (ParkingSpot × Position)) :=
  match collectOnstreetLanes s driving_pos vehicle map
      (mmGet s.driving_to_parking_lanes driving_pos.lane) with
  | none => none
  | some onOut =>
    match collectOffstreet s driving_pos target map
        (mmGet s.driving_to_offstreet driving_pos.lane) with
    | none => none
    | some offOut =>
      match collectLots s driving_pos map
          (mmGet s.driving_to_lots driving_pos.lane) with
      | none => none
      | some lotOut => pairWithPos s vehicle map (onOut ++ offOut ++ lotOut)

/-- The lexicographic order used by `BinaryHeap<(Distance, LaneID)>`:
compare the (negated) cost, then the lane id. -/
def heapLeb (a b : ℚ × LaneID) : Bool :=
  decide (a.1 < b.1) || (decide (a.1 = b.1) && decide (a.2 ≤ b.2))

/-- The greatest entry of a frontier, by `heapLeb`. -/
def heapMax : (ℚ × LaneID) → List (ℚ × LaneID) → (ℚ × LaneID)
  | m, [] => m
  | m, x :: xs => heapMax (if heapLeb m x then x else m) xs

/-- Remove the first occurrence of an element. -/
def removeFirst {α : Type} [DecidableEq α] : List α → α → List α
  | [], _ => []
  | x :: xs, a => if x = a then xs else x :: removeFirst xs a

/-- `BinaryHeap::pop`: extract the greatest `(negated cost, lane)` entry. -/
def heapPop (q : List (ℚ × LaneID)) :
    Option ((ℚ × LaneID) × List (ℚ × LaneID)) :=
  match q with
  | [] => none
  | x :: xs =>
    let m := heapMax x xs
    some (m, removeFirst (x :: xs) m)

/-- `Iterator::min_by_key`: the first element with the least key. -/
def minByKey {α : Type} (f : α → ℚ) : List α → Option α
  | [] => none
  | x :: xs => some (xs.foldl (fun best y => if f y < f best then y else best) x)

/-- The backwards path reconstruction of `path_to_free_parking_spot`,
walking recorded predecessor turns from the found lane to the start.  The
fuel bounds the walk; `none` also models the `backrefs[&current]` panic. -/
def reconstructPath (backrefs : List (LaneID × TurnID)) (start : LaneID) :
    Nat → LaneID → List PathStep → Option (List PathStep)
  | 0, _, _ => none
  | fuel + 1, current, steps =>
    if current = start then some steps.dropLast.reverse
    else
      match alookup backrefs current with
      | none => none
      | some turn =>
        reconstructPath backrefs start fuel turn.src
          (steps ++ [PathStep.Turn turn, PathStep.Lane turn.src])

/-- The frontier expansion of `path_to_free_parking_spot`: push every
not-yet-discovered turn destination with the negated accumulated cost.
`none` models the `map.get_l(current)` panic. -/
def expandTurns (dist_so_far : ℚ) (currentLen : Option ℚ) :
    List Turn → List (LaneID × TurnID) → List (ℚ × LaneID) →
      Option (List (LaneID × TurnID) × List (ℚ × LaneID))
  | [], br, q => some (br, q)
  | t :: ts, br, q =>
    if (alookup br t.id.dst).isSome then expandTurns dist_so_far currentLen ts br q
    else
      match currentLen with
      | none => none
      | some len =>
        expandTurns dist_so_far currentLen ts (ainsert br t.id.dst t.id)
          ((dist_so_far - (t.geom_length + len), t.id.dst) :: q)

/-- The main loop of `path_to_free_parking_spot`.  The outer option is a
panic or fuel exhaustion; the inner option is the Rust return value
(`none` = no free spot reachable, a normal outcome). -/
def searchLoop (s : ParkingSimState) (vehicle : Vehicle) (target : BuildingID)
    (map : Map) (start : LaneID) :
    Nat → List (LaneID × TurnID) → List (ℚ × LaneID) →
      Option (Option (List PathStep × ParkingSpot × Position))
  | 0, _, _ => none
  | fuel + 1, br, q =>
    match heapPop q with
    | none => some none
    | some ((dist_so_far, current), q1) =>
      let found : Option (Option (ParkingSpot × Position)) :=
        if current = start then some none
        else
          match get_all_free_spots s { lane := current, dist_along := 0 }
              vehicle target map with
          | none => none
          | some lst => some (minByKey (fun sp => sp.2.dist_along) lst)
      match found with
      | none => none
      | some (some (spot, pos)) =>
        match reconstructPath br start (br.length + 1) current
            [PathStep.Lane current] with
        | none => none
        | some steps => some (some (steps, spot, pos))
      | some none =>
        match expandTurns dist_so_far ((map.get_l current).map (fun l => l.length))
            (map.get_turns_for current) br q1 with
        | none => none
        | some (br2, q2) => searchLoop s vehicle target map start fuel br2 q2

/-- `ParkingSimState::path_to_free_parking_spot`, seeded with the start lane
at cost zero; the fuel is an upper bound on the number of heap pops. -/
def path_to_free_parking_spot (s : ParkingSimState) (start : LaneID)
    (vehicle : Vehicle) (target : BuildingID) (map : Map) :
    Option (Option (List PathStep × ParkingSpot × Position)) :=
  searchLoop s vehicle target map start (map.turns.length + 2) [] [(0, start)]

/-- The ledger disjointness invariant: no spot is both occupied and reserved. -/
def SpotsDisjoint (s : ParkingSimState) : Prop :=
  ∀ spot car, alookup s.occupants spot = some car → spot ∉ s.reserved_spots

/-- The occupants / parked_cars mutual-consistency invariant: every occupant
entry has a matching parked-car record at the same spot, and conversely. -/
def Consistent (s : ParkingSimState) : Prop :=
  (∀ spot car, alookup s.occupants spot = some car →
    ∃ p, alookup s.parked_cars car = some p ∧ p.spot = spot) ∧
  (∀ car p, alookup s.parked_cars car = some p →
    alookup s.occupants p.spot = some car)

/-- A one-lane map with one public building holding one offstreet spot. -/
def laneW : Lane :=
  { id := 0, lane_type := LaneType.Driving, driving_blackhole := false
    length := 10, number_parking_spots := 0
    parking_to_driving := none, closest_walkable := none }

/-- Witness map: the building survives every edit that reuses it. -/
def mapW : Map :=
  { lanes := [laneW]
    buildings :=
      [{ id := 0, parking := OffstreetParking.PublicGarage 1
         driving_connection := some { lane := 0, dist_along := 5 }
         sidewalk_pos := { lane := 0, dist_along := 5 } }]
    lots := []
    turns := []
    equiv_pos := fun p l => { lane := l, dist_along := p.dist_along }
    equiv_pos_for_long_object := fun p l _ => { lane := l, dist_along := p.dist_along } }

/-- The same map with the building deleted: its offstreet spot vanishes. -/
def mapWGone : Map := { mapW with buildings := [] }

/-- The ledger state `ParkingSimState::new` builds from `mapW`. -/
def sW0 : ParkingSimState :=
  { parked_cars := [], occupants := [], reserved_spots := []
    onstreet_lanes := [], driving_to_parking_lanes := []
    num_spots_per_offstreet := [(0, 1)], driving_to_offstreet := [(0, (0, 5))]
    num_spots_per_lot := [], driving_to_lots := [], events := [] }

/-- `sW0` after reserving the single offstreet spot. -/
def sW1 : ParkingSimState := { sW0 with reserved_spots := [ParkingSpot.Offstreet 0 0] }

/-- A one-spot parking lane whose front distance for spot 0 is 10. -/
def pLaneW : ParkingLane :=
  { parking_lane := 7, driving_lane := 3, sidewalk := 4, spot_dist_along := [10] }

/-- A vehicle of length 2. -/
def vehW : Vehicle := { id := 1, owner := none, length := 2 }

/-- A ledger whose inventory is just the lane `pLaneW`. -/
def sWLane : ParkingSimState :=
  { parked_cars := [], occupants := [], reserved_spots := []
    onstreet_lanes := [(7, pLaneW)], driving_to_parking_lanes := []
    num_spots_per_offstreet := [], driving_to_offstreet := []
    num_spots_per_lot := [], driving_to_lots := [], events := [] }

/-- A map whose projection helpers preserve the distance along the lane. -/
def mapWId : Map :=
  { lanes := [], buildings := [], lots := [], turns := []
    equiv_pos := fun p l => { lane := l, dist_along := p.dist_along }
    equiv_pos_for_long_object := fun p l _ => { lane := l, dist_along := p.dist_along } }

/-- A ledger with a public offstreet building (dist 5) and a lot (dist 6) on
lane 0. -/
def sWSearch : ParkingSimState :=
  { parked_cars := [], occupants := [], reserved_spots := []
    onstreet_lanes := [], driving_to_parking_lanes := []
    num_spots_per_offstreet := [(0, 1)], driving_to_offstreet := [(0, (0, 5))]
    num_spots_per_lot := [(1, 1)], driving_to_lots := [(0, 1)], events := [] }

/-- The map behind `sWSearch`. -/
def mapWSearch : Map :=
  { lanes := [laneW]
    buildings :=
      [{ id := 0, parking := OffstreetParking.PublicGarage 1
         driving_connection := some { lane := 0, dist_along := 5 }
         sidewalk_pos := { lane := 0, dist_along := 5 } }]
    lots :=
      [{ id := 1, capacity := 1
         driving_pos := { lane := 0, dist_along := 6 }
         sidewalk_pos := { lane := 0, dist_along := 6 } }]
    turns := []
    equiv_pos := fun p l => { lane := l, dist_along := p.dist_along }
    equiv_pos_for_long_object := fun p l _ => { lane := l, dist_along := p.dist_along } }

/-- `sWSearch` with the offstreet tables dropped: only the lot remains. -/
def sWLot : ParkingSimState :=
  { sWSearch with num_spots_per_offstreet := [], driving_to_offstreet := [] }

/-- A car for the event-queue scenario. -/
def pW9 : ParkedCar :=
  { vehicle := { id := 3, owner := none, length := 4 }, spot := ParkingSpot.Offstreet 5 0 }

/-- A ledger with `pW9`'s spot reserved and an empty event queue. -/
def sW9 : ParkingSimState :=
  { parked_cars := [], occupants := [], reserved_spots := [ParkingSpot.Offstreet 5 0]
    onstreet_lanes := [], driving_to_parking_lanes := []
    num_spots_per_offstreet := [], driving_to_offstreet := []
    num_spots_per_lot := [], driving_to_lots := [], events := [] }

/-- The state `add_parked_car sW9 pW9` produces. -/
def sW9Add : ParkingSimState :=
  { parked_cars := [(3, pW9)], occupants := [(ParkingSpot.Offstreet 5 0, 3)]
    reserved_spots := [], onstreet_lanes := [], driving_to_parking_lanes := []
    num_spots_per_offstreet := [], driving_to_offstreet := []
    num_spots_per_lot := [], driving_to_lots := []
    events := [Event.CarReachedParkingSpot 3 (ParkingSpot.Offstreet 5 0)] }

/-- The list `get_all_free_spots` returns for `sWSearch` queried from
`{ lane := 0, dist_along := 1 }`. -/
def resW8 : List (ParkingSpot × Position) :=
  [(ParkingSpot.Offstreet 0 0, { lane := 0, dist_along := 5 }),
    (ParkingSpot.Lot 1 0, { lane := 0, dist_along := 6 })]

/-- The propositional form of the heap order `heapLeb`. -/
def heapLeProp (a b : ℚ × LaneID) : Prop :=
  a.1 < b.1 ∨ (a.1 = b.1 ∧ a.2 ≤ b.2)

theorem alookup_aerase {α β : Type} [DecidableEq α] (m : List (α × β)) (k k2 : α) :
    alookup (aerase m k) k2 = if k2 = k then none else alookup m k2 := by
  induction m with
  | nil => simp [aerase, alookup]
  | cons hd tl ih =>
    obtain ⟨hk, hv⟩ := hd
    by_cases h1 : hk = k
    · subst h1
      by_cases h2 : k2 = hk
      · subst h2
        simp [aerase, List.filter_cons, alookup] at ih ⊢
        simp [ih]
      · simp [aerase, List.filter_cons, alookup, h2] at ih ⊢
        simp [ih, h2]
    · by_cases h2 : k2 = hk
      · subst h2
        simp [aerase, List.filter_cons, alookup, h1] at ih ⊢
      · simp [aerase, List.filter_cons, alookup, h1, h2] at ih ⊢
        exact ih

theorem alookup_ainsert {α β : Type} [DecidableEq α] (m : List (α × β)) (k : α)
    (v : β) (k2 : α) :
    alookup (ainsert m k v) k2 = if k2 = k then some v else alookup m k2 := by
  by_cases h : k2 = k
  · simp [ainsert, alookup, h]
  · simp [ainsert, alookup, h, alookup_aerase]

theorem reserve_spot_eq {s s2 : ParkingSimState} {spot : ParkingSpot}
    (h : reserve_spot s spot = some s2) :
    is_free s spot = true ∧
      s2 = { s with reserved_spots := spot :: s.reserved_spots } := by
  unfold reserve_spot at h
  split at h
  case isFalse => simp at h
  case isTrue hf =>
    refine ⟨hf, ?_⟩
    split at h <;> (split at h <;> try simp at h) <;> simp_all

theorem add_parked_car_eq {s s2 : ParkingSimState} {p : ParkedCar}
    (h : add_parked_car s p = some s2) :
    p.spot ∈ s.reserved_spots ∧
      alookup s.occupants p.spot = none ∧
      alookup s.parked_cars p.vehicle.id = none ∧
      s2 = { s with
        reserved_spots := s.reserved_spots.filter (fun x => !(decide (x = p.spot)))
        occupants := ainsert s.occupants p.spot p.vehicle.id
        parked_cars := ainsert s.parked_cars p.vehicle.id p
        events := s.events ++ [Event.CarReachedParkingSpot p.vehicle.id p.spot] } := by
  unfold add_parked_car at h
  split at h
  case isFalse => simp at h
  case isTrue hmem =>
    split at h
    case isTrue => simp at h
    case isFalse hocc =>
      split at h
      case isTrue => simp at h
      case isFalse hpark =>
        simp only [Option.some.injEq] at h
        refine ⟨hmem, ?_, ?_, h.symm⟩
        · cases ho : alookup s.occupants p.spot with
          | none => rfl
          | some c => exact absurd (by simp [ho]) hocc
        · cases hq : alookup s.parked_cars p.vehicle.id with
          | none => rfl
          | some c => exact absurd (by simp [hq]) hpark

theorem remove_parked_car_eq {s s2 : ParkingSimState} {p : ParkedCar}
    (h : remove_parked_car s p = some s2) :
    (alookup s.parked_cars p.vehicle.id).isSome = true ∧
      (alookup s.occupants p.spot).isSome = true ∧
      s2 = { s with
        parked_cars := aerase s.parked_cars p.vehicle.id
        occupants := aerase s.occupants p.spot
        events := s.events ++ [Event.CarLeftParkingSpot p.vehicle.id p.spot] } := by
  unfold remove_parked_car at h
  split at h
  case h_1 => simp at h
  case h_2 c1 hc1 =>
    split at h
    case h_1 => simp at h
    case h_2 c2 hc2 =>
      simp only [Option.some.injEq] at h
      exact ⟨by simp [hc1], by simp [hc2], h.symm⟩

theorem evictLoop_reserved_eq {avail : List ParkingSpot} :
    ∀ {spots : List ParkingSpot} {s : ParkingSimState} {acc : List ParkedCar}
      {s2 : ParkingSimState} {ev : List ParkedCar},
      evictLoop avail spots s acc = some (s2, ev) →
      s2.reserved_spots = s.reserved_spots := by
  intro spots
  induction spots with
  | nil =>
    intro s acc s2 ev h
    simp [evictLoop] at h
    rw [← h.1]
  | cons spot rest ih =>
    intro s acc s2 ev h
    unfold evictLoop at h
    split at h
    · exact ih h
    · split at h
      case h_1 => simp at h
      case h_2 car hcar =>
        split at h
        case h_1 => simp at h
        case h_2 pc hpc =>
          have h3 := ih h
          exact h3

theorem evictLoop_occ_lookup {avail : List ParkingSpot} :
    ∀ {spots : List ParkingSpot} {s : ParkingSimState} {acc : List ParkedCar}
      {s2 : ParkingSimState} {ev : List ParkedCar},
      evictLoop avail spots s acc = some (s2, ev) →
      ∀ spot c, alookup s2.occupants spot = some c →
        alookup s.occupants spot = some c := by
  intro spots
  induction spots with
  | nil =>
    intro s acc s2 ev h spot c hc
    simp [evictLoop] at h
    rw [h.1]
    exact hc
  | cons spot0 rest ih =>
    intro s acc s2 ev h spot c hc
    unfold evictLoop at h
    split at h
    · exact ih h spot c hc
    · split at h
      case h_1 => simp at h
      case h_2 car hcar =>
        split at h
        case h_1 => simp at h
        case h_2 pc hpc =>
          have h2 := ih h spot c hc
          dsimp only at h2
          rw [alookup_aerase] at h2
          split at h2
          · exact absurd h2 (by simp)
          · exact h2

theorem consistent_erase {s : ParkingSimState} {spot0 : ParkingSpot} {car : CarID}
    (hs : Consistent s) (hcar : alookup s.occupants spot0 = some car) :
    Consistent { s with
      occupants := aerase s.occupants spot0
      parked_cars := aerase s.parked_cars car } := by
  obtain ⟨p0, hp0, hp0s⟩ := hs.1 spot0 car hcar
  constructor
  · intro spot c hc
    dsimp only at hc
    rw [alookup_aerase] at hc
    by_cases he : spot = spot0
    · rw [if_pos he] at hc
      exact absurd hc (by simp)
    · rw [if_neg he] at hc
      obtain ⟨q, hq, hqs⟩ := hs.1 spot c hc
      refine ⟨q, ?_, hqs⟩
      dsimp only
      rw [alookup_aerase]
      by_cases hce : c = car
      · exfalso
        rw [hce] at hq
        rw [hq] at hp0
        injection hp0 with hqp
        apply he
        rw [← hqs, hqp, hp0s]
      · rw [if_neg hce]
        exact hq
  · intro c q hq
    dsimp only at hq ⊢
    rw [alookup_aerase] at hq
    by_cases hce : c = car
    · rw [if_pos hce] at hq
      exact absurd hq (by simp)
    · rw [if_neg hce] at hq
      have hocc := hs.2 c q hq
      rw [alookup_aerase]
      by_cases hqsp : q.spot = spot0
      · exfalso
        rw [hqsp] at hocc
        rw [hcar] at hocc
        injection hocc with h2
        exact hce h2.symm
      · rw [if_neg hqsp]
        exact hocc

theorem evictLoop_consistent {avail : List ParkingSpot} :
    ∀ {spots : List ParkingSpot} {s : ParkingSimState} {acc : List ParkedCar}
      {s2 : ParkingSimState} {ev : List ParkedCar},
      Consistent s → evictLoop avail spots s acc = some (s2, ev) →
      Consistent s2 := by
  intro spots
  induction spots with
  | nil =>
    intro s acc s2 ev hs h
    simp [evictLoop] at h
    rw [← h.1]
    exact hs
  | cons spot0 rest ih =>
    intro s acc s2 ev hs h
    unfold evictLoop at h
    split at h
    · exact ih hs h
    · split at h
      case h_1 => simp at h
      case h_2 car hcar =>
        split at h
        case h_1 => simp at h
        case h_2 pc hpc => exact ih (consistent_erase hs hcar) h

theorem handle_live_edits_eq {s : ParkingSimState} {map : Map}
    {s2 : ParkingSimState} {ev : List ParkedCar}
    (h : handle_live_edits s map = some (s2, ev)) :
    ∃ newSim sMid,
      ParkingSimState.new map = some newSim ∧
      evictLoop ((get_all_parking_spots newSim).2) ((get_all_parking_spots s).1)
        { s with
          onstreet_lanes := newSim.onstreet_lanes
          driving_to_parking_lanes := newSim.driving_to_parking_lanes
          num_spots_per_offstreet := newSim.num_spots_per_offstreet
          driving_to_offstreet := newSim.driving_to_offstreet
          num_spots_per_lot := newSim.num_spots_per_lot
          driving_to_lots := newSim.driving_to_lots } [] = some (sMid, ev) ∧
      s2 = { sMid with
        reserved_spots :=
          sMid.reserved_spots.filter
            (fun x => !(decide (x ∈ (get_all_parking_spots newSim).2))) } := by
  unfold handle_live_edits at h
  split at h
  case h_1 => simp at h
  case h_2 newSim hnew =>
    dsimp only at h
    split at h
    case h_1 => simp at h
    case h_2 sMid evMid hloop =>
      simp only [Option.some.injEq, Prod.mk.injEq] at h
      exact ⟨newSim, sMid, hnew, by rw [← h.2]; exact hloop, h.1.symm⟩

theorem consistent_fields {s t : ParkingSimState} (hocc : t.occupants = s.occupants)
    (hpark : t.parked_cars = s.parked_cars) (hs : Consistent s) : Consistent t := by
  unfold Consistent at hs ⊢
  rw [hocc, hpark]
  exact hs

/-- C6: in every state satisfying the disjointness invariant, each of the
four ledger operations (`reserve_spot`, `add_parked_car`,
`remove_parked_car`, `handle_live_edits`), whenever it succeeds, yields a
state in which the occupied map and the reserved set are again disjoint. -/
theorem c6_disjoint_preserved (s : ParkingSimState) (hd : SpotsDisjoint s) :
    (∀ spot s2, reserve_spot s spot = some s2 → SpotsDisjoint s2) ∧
    (∀ p s2, add_parked_car s p = some s2 → SpotsDisjoint s2) ∧
    (∀ p s2, remove_parked_car s p = some s2 → SpotsDisjoint s2) ∧
    (∀ map s2 ev, handle_live_edits s map = some (s2, ev) → SpotsDisjoint s2) := by
  refine ⟨?_, ?_, ?_, ?_⟩
  · intro spot s2 h
    obtain ⟨hf, hs2⟩ := reserve_spot_eq h
    subst hs2
    intro spot2 car hc
    dsimp only at hc ⊢
    intro hmem
    rcases List.mem_cons.mp hmem with he | hm
    · subst he
      have hn : (alookup s.occupants spot2).isNone = true := by
        unfold is_free at hf
        rw [Bool.and_eq_true] at hf
        exact hf.1
      rw [hc] at hn
      simp at hn
    · exact hd spot2 car hc hm
  · intro p s2 h
    obtain ⟨hmem, hocc, hpark, hs2⟩ := add_parked_car_eq h
    subst hs2
    intro spot car hc
    dsimp only at hc ⊢
    rw [alookup_ainsert] at hc
    intro hr
    have hr2 := List.mem_filter.mp hr
    by_cases he : spot = p.spot
    · rw [he] at hr2
      simp at hr2
    · rw [if_neg he] at hc
      exact hd spot car hc hr2.1
  · intro p s2 h
    obtain ⟨h1, h2, hs2⟩ := remove_parked_car_eq h
    subst hs2
    intro spot car hc
    dsimp only at hc ⊢
    rw [alookup_aerase] at hc
    split at hc
    · exact absurd hc (by simp)
    · exact hd spot car hc
  · intro map s2 ev h
    obtain ⟨newSim, sMid, hnew, hloop, hs2⟩ := handle_live_edits_eq h
    subst hs2
    intro spot car hc
    dsimp only at hc ⊢
    have hc2 := evictLoop_occ_lookup hloop spot car hc
    dsimp only at hc2
    have hres := evictLoop_reserved_eq hloop
    intro hr
    have hr2 := (List.mem_filter.mp hr).1
    rw [hres] at hr2
    dsimp only at hr2
    exact hd spot car hc2 hr2

theorem c6_witness : SpotsDisjoint sW1 :=
  (c6_disjoint_preserved sW0
      (by intro spot car hc; simp [sW0, alookup] at hc)).1
    (ParkingSpot.Offstreet 0 0) sW1 (by decide)

/-- C10: in every state satisfying the occupants / parked_cars consistency
invariant, `get_car_at_spot` never hits its unguarded-lookup panic, and the
mutating operations (`add_parked_car`; `remove_parked_car` called with the
vehicle's current parked record; `handle_live_edits`), whenever they
succeed, preserve the invariant. -/
theorem c10_consistency (s : ParkingSimState) (hs : Consistent s) :
    (∀ spot, get_car_at_spot s spot ≠ none) ∧
    (∀ p s2, add_parked_car s p = some s2 → Consistent s2) ∧
    (∀ p s2, alookup s.parked_cars p.vehicle.id = some p →
      remove_parked_car s p = some s2 → Consistent s2) ∧
    (∀ map s2 ev, handle_live_edits s map = some (s2, ev) → Consistent s2) := by
  refine ⟨?_, ?_, ?_, ?_⟩
  · intro spot
    unfold get_car_at_spot
    cases ho : alookup s.occupants spot with
    | none => simp
    | some car =>
      obtain ⟨p, hp, hps⟩ := hs.1 spot car ho
      simp [hp]
  · intro p s2 h
    obtain ⟨hmem, hocc, hpark, hs2⟩ := add_parked_car_eq h
    subst hs2
    constructor
    · intro spot car hc
      dsimp only at hc ⊢
      rw [alookup_ainsert] at hc
      by_cases he : spot = p.spot
      · rw [if_pos he] at hc
        injection hc with hc2
        exact ⟨p, by rw [alookup_ainsert, if_pos hc2.symm], he.symm⟩
      · rw [if_neg he] at hc
        obtain ⟨q, hq, hqs⟩ := hs.1 spot car hc
        refine ⟨q, ?_, hqs⟩
        rw [alookup_ainsert]
        by_cases hcv : car = p.vehicle.id
        · exfalso
          rw [hcv] at hq
          rw [hpark] at hq
          simp at hq
        · rw [if_neg hcv]
          exact hq
    · intro car q hq
      dsimp only at hq ⊢
      rw [alookup_ainsert] at hq
      by_cases hcv : car = p.vehicle.id
      · rw [if_pos hcv] at hq
        injection hq with hq2
        rw [alookup_ainsert, ← hq2, if_pos rfl, hcv]
      · rw [if_neg hcv] at hq
        have hocc2 := hs.2 car q hq
        rw [alookup_ainsert]
        by_cases hqs : q.spot = p.spot
        · exfalso
          rw [hqs] at hocc2
          rw [hocc] at hocc2
          simp at hocc2
        · rw [if_neg hqs]
          exact hocc2
  · intro p s2 hpre h
    obtain ⟨h1, h2, hs2⟩ := remove_parked_car_eq h
    subst hs2
    have hcar : alookup s.occupants p.spot = some p.vehicle.id :=
      hs.2 p.vehicle.id p hpre
    exact consistent_fields rfl rfl (consistent_erase hs hcar)
  · intro map s2 ev h
    obtain ⟨newSim, sMid, hnew, hloop, hs2⟩ := handle_live_edits_eq h
    subst hs2
    have hsInv : Consistent { s with
        onstreet_lanes := newSim.onstreet_lanes
        driving_to_parking_lanes := newSim.driving_to_parking_lanes
        num_spots_per_offstreet := newSim.num_spots_per_offstreet
        driving_to_offstreet := newSim.driving_to_offstreet
        num_spots_per_lot := newSim.num_spots_per_lot
        driving_to_lots := newSim.driving_to_lots } :=
      consistent_fields rfl rfl hs
    have hmid : Consistent sMid := evictLoop_consistent hsInv hloop
    exact consistent_fields rfl rfl hmid

theorem c10_witness : get_car_at_spot sW0 (ParkingSpot.Offstreet 0 0) ≠ none :=
  (c10_consistency sW0
      ⟨by intro spot car hc; simp [sW0, alookup] at hc,
        by intro car p hp; simp [sW0, alookup] at hp⟩).1
    (ParkingSpot.Offstreet 0 0)

/-- C9: `collect_events` returns exactly the queued events and leaves the
queue empty (so a second drain with no intervening mutation yields `[]`),
and each successful `add_parked_car` / `remove_parked_car` appends exactly
one `CarReachedParkingSpot` / `CarLeftParkingSpot` event. -/
theorem c9_event_queue (s : ParkingSimState) (p q : ParkedCar) :
    (collect_events s).1 = s.events ∧
    ((collect_events s).2).events = [] ∧
    (collect_events ((collect_events s).2)).1 = [] ∧
    (∀ s2, add_parked_car s p = some s2 →
      s2.events = s.events ++ [Event.CarReachedParkingSpot p.vehicle.id p.spot]) ∧
    (∀ s2, remove_parked_car s q = some s2 →
      s2.events = s.events ++ [Event.CarLeftParkingSpot q.vehicle.id q.spot]) := by
  refine ⟨rfl, rfl, rfl, ?_, ?_⟩
  · intro s2 h
    obtain ⟨h1, h2, h3, hs2⟩ := add_parked_car_eq h
    rw [hs2]
  · intro s2 h
    obtain ⟨h1, h2, hs2⟩ := remove_parked_car_eq h
    rw [hs2]

theorem c9_witness :
    sW9Add.events =
      sW9.events ++ [Event.CarReachedParkingSpot pW9.vehicle.id pW9.spot] :=
  (c9_event_queue sW9 pW9 pW9).2.2.2.1 sW9Add (by decide)

/-- C1: evidence against the claim.  Starting from the `mapW`-built
inventory, reserve the single offstreet spot; re-running
`handle_live_edits` with the unchanged map keeps that spot available, so
the claimed reserved set after the edit — {reserved before} ∩ {available
after} — is `[Offstreet 0 0]`; but the code computes the set difference and
returns an empty reserved set. -/
theorem c1_difference_not_intersection :
    reserve_spot sW0 (ParkingSpot.Offstreet 0 0) = some sW1 ∧
    (ParkingSimState.new mapW).map (fun n => (get_all_parking_spots n).2)
      = some [ParkingSpot.Offstreet 0 0] ∧
    (handle_live_edits sW1 mapW).map (fun r => (r.1.reserved_spots, r.2))
      = some ([], []) := by
  exact ⟨by decide, by decide, by decide⟩

/-- C2: evidence against the claim.  The spot `Offstreet 0 0` is reserved
but not occupied in `sW1`; editing to `mapWGone` (the building deleted)
makes the eviction loop call `occupants.remove(&spot).unwrap()` on a spot
with no occupant, so `handle_live_edits` panics (`none`) instead of
completing with an empty eviction list. -/
theorem c2_panic_on_vanished_reservation :
    alookup sW1.occupants (ParkingSpot.Offstreet 0 0) = none ∧
    ParkingSpot.Offstreet 0 0 ∈ sW1.reserved_spots ∧
    handle_live_edits sW1 mapWGone = none := by
  exact ⟨by decide, by decide, by decide⟩

/-- C7: evidence against the claim.  After `reserve_spot`, `is_free` is
false; but a live edit that keeps the spot available (same map) drops the
reservation — the eviction list is empty, no `add_parked_car` or
`remove_parked_car` ran, the spot still exists, and yet `is_free` has
become true again. -/
theorem c7_reservation_lost_without_eviction :
    reserve_spot sW0 (ParkingSpot.Offstreet 0 0) = some sW1 ∧
    is_free sW1 (ParkingSpot.Offstreet 0 0) = false ∧
    (handle_live_edits sW1 mapW).map
      (fun r => (is_free r.1 (ParkingSpot.Offstreet 0 0), r.2))
      = some (true, []) := by
  exact ⟨by decide, by decide, by decide⟩

/-- C4: counterexample.  For lane `pLaneW` (spot 0 front distance D = 10)
and the length-2 vehicle `vehW` (L = 2), under a distance-preserving
projection the projected driving position of the vehicle's front is 7 — the
vehicle is centered in the 8-meter spot — not the claimed D = 10 (and its
rear is 5, not D − L = 8). -/
theorem c4_counterexample :
    (spot_to_driving_pos sWLane (ParkingSpot.Onstreet 7 0) vehW mapWId).map
        Position.dist_along = some 7 ∧
      (7 : ℚ) ≠ 10 := by
  constructor
  · simp [spot_to_driving_pos, sWLane, alookup, pLaneW,
      ParkingLane.dist_along_for_car, mapWId, vehW, PARKING_SPOT_LENGTH]
    norm_num
  · norm_num

/-- C4 (amended): `dist_along_for_car` centers the vehicle in its spot: for
an Onstreet spot with front distance D and a vehicle of length L, the
vehicle's front sits at D − (S − L)/2 (hence its rear at D − (S + L)/2),
where S is the fixed spot length; and the sidewalk position is the spot's
midpoint D − S/2, independent of the vehicle. -/
theorem c4_amended (s : ParkingSimState) (l : LaneID) (pl : ParkingLane)
    (idx : Nat) (D : ℚ) (v : Vehicle) (map : Map)
    (hl : alookup s.onstreet_lanes l = some pl)
    (hd : pl.spot_dist_along.get? idx = some D)
    (hp : ∀ p ln, (map.equiv_pos p ln).dist_along = p.dist_along) :
    pl.dist_along_for_car idx v
        = some (D - (PARKING_SPOT_LENGTH - v.length) / 2) ∧
      (spot_to_sidewalk_pos s (ParkingSpot.Onstreet l idx) map).map
          Position.dist_along
        = some (D - PARKING_SPOT_LENGTH / 2) := by
  constructor
  · rw [ParkingLane.dist_along_for_car, hd]
    rfl
  · have hd2 : pl.spot_dist_along[idx]? = some D := by
      rw [← List.get?_eq_getElem?]
      exact hd
    simp [spot_to_sidewalk_pos, hl, hd2, hp]

theorem c4_witness :
    pLaneW.dist_along_for_car 0 vehW
        = some (10 - (PARKING_SPOT_LENGTH - vehW.length) / 2) ∧
      (spot_to_sidewalk_pos sWLane (ParkingSpot.Onstreet 7 0) mapWId).map
          Position.dist_along
        = some (10 - PARKING_SPOT_LENGTH / 2) :=
  c4_amended sWLane 7 pLaneW 0 10 vehW mapWId (by decide) (by decide)
    (fun p ln => rfl)

theorem heapLeb_iff (a b : ℚ × LaneID) : heapLeb a b = true ↔ heapLeProp a b := by
  unfold heapLeb heapLeProp
  simp

theorem heapLeProp_refl (a : ℚ × LaneID) : heapLeProp a a :=
  Or.inr ⟨rfl, le_refl _⟩

theorem heapLeProp_trans {a b c : ℚ × LaneID} (h1 : heapLeProp a b)
    (h2 : heapLeProp b c) : heapLeProp a c := by
  rcases h1 with h1 | ⟨h1e, h1le⟩
  · rcases h2 with h2 | ⟨h2e, h2le⟩
    · exact Or.inl (lt_trans h1 h2)
    · exact Or.inl (h2e ▸ h1)
  · rcases h2 with h2 | ⟨h2e, h2le⟩
    · exact Or.inl (h1e ▸ h2)
    · exact Or.inr ⟨h1e.trans h2e, le_trans h1le h2le⟩

theorem heapLeProp_total (a b : ℚ × LaneID) : heapLeProp a b ∨ heapLeProp b a := by
  unfold heapLeProp
  rcases lt_trichotomy a.1 b.1 with h | h | h
  · exact Or.inl (Or.inl h)
  · rcases le_total a.2 b.2 with h2 | h2
    · exact Or.inl (Or.inr ⟨h, h2⟩)
    · exact Or.inr (Or.inr ⟨h.symm, h2⟩)
  · exact Or.inr (Or.inl h)

theorem heapMax_ge :
    ∀ (xs : List (ℚ × LaneID)) (m e : ℚ × LaneID),
      e = m ∨ e ∈ xs → heapLeProp e (heapMax m xs) := by
  intro xs
  induction xs with
  | nil =>
    intro m e he
    rcases he with he | he
    · subst he
      exact heapLeProp_refl e
    · exact absurd he (List.not_mem_nil e)
  | cons x xs ih =>
    intro m e he
    have hstep : heapLeProp m (if heapLeb m x then x else m) ∧
        heapLeProp x (if heapLeb m x then x else m) := by
      by_cases hx : heapLeb m x = true
      · rw [if_pos hx]
        exact ⟨(heapLeb_iff m x).mp hx, heapLeProp_refl x⟩
      · rw [if_neg hx]
        refine ⟨heapLeProp_refl m, ?_⟩
        rcases heapLeProp_total m x with h | h
        · exact absurd ((heapLeb_iff m x).mpr h) hx
        · exact h
    rcases he with he | he
    · subst he
      exact heapLeProp_trans hstep.1 (ih _ _ (Or.inl rfl))
    · rcases List.mem_cons.mp he with he2 | he2
      · subst he2
        exact heapLeProp_trans hstep.2 (ih _ _ (Or.inl rfl))
      · exact ih _ e (Or.inr he2)

theorem heapMax_mem :
    ∀ (xs : List (ℚ × LaneID)) (m : ℚ × LaneID),
      heapMax m xs = m ∨ heapMax m xs ∈ xs := by
  intro xs
  induction xs with
  | nil => intro m; exact Or.inl rfl
  | cons x xs ih =>
    intro m
    rw [heapMax]
    by_cases hx : heapLeb m x = true
    · rw [if_pos hx]
      rcases ih x with h | h
      · exact Or.inr (List.mem_cons.mpr (Or.inl h))
      · exact Or.inr (List.mem_cons.mpr (Or.inr h))
    · rw [if_neg hx]
      rcases ih m with h | h
      · exact Or.inl h
      · exact Or.inr (List.mem_cons.mpr (Or.inr h))

theorem heapPop_spec {q : List (ℚ × LaneID)} {m : ℚ × LaneID}
    {rest : List (ℚ × LaneID)} (h : heapPop q = some (m, rest)) :
    m ∈ q ∧ ∀ e ∈ q, heapLeProp e m := by
  cases q with
  | nil => simp [heapPop] at h
  | cons x xs =>
    simp only [heapPop, Option.some.injEq, Prod.mk.injEq] at h
    constructor
    · rw [← h.1]
      rcases heapMax_mem xs x with h2 | h2
      · rw [h2]
        exact List.mem_cons.mpr (Or.inl rfl)
      · exact List.mem_cons.mpr (Or.inr h2)
    · intro e he
      rw [← h.1]
      rcases List.mem_cons.mp he with he2 | he2
      · exact heapMax_ge xs x e (Or.inl he2)
      · exact heapMax_ge xs x e (Or.inr he2)

/-- C3 (amended): the frontier pop of `path_to_free_parking_spot` returns a
lexicographically maximal `(negated cost, lane)` entry, so whenever two
lanes sit on the frontier with equal accumulated cost, the one with the
HIGHER lane identifier is popped and expanded first (never the lower one
while an equal-cost higher id is present); and the search is a pure
function of its input state, so repeated runs return the identical result. -/
theorem c3_higher_lane_pops_first (q : List (ℚ × LaneID)) (c : ℚ)
    (l l2 : LaneID) (rest : List (ℚ × LaneID))
    (hpop : heapPop q = some ((c, l), rest)) (hmem : (c, l2) ∈ q) :
    l2 ≤ l ∧
      (∀ s start v target map,
        path_to_free_parking_spot s start v target map =
          path_to_free_parking_spot s start v target map) := by
  refine ⟨?_, fun _ _ _ _ _ => rfl⟩
  have h2 := (heapPop_spec hpop).2 (c, l2) hmem
  rcases h2 with hlt | ⟨he, hle⟩
  · exact absurd hlt (lt_irrefl c)
  · exact hle

/-- C3: counterexample to the claim as stated.  With lanes 1 and 2 both on
the frontier at equal (negated) cost 0, the pop used by
`path_to_free_parking_spot` returns lane 2 — the higher identifier — not
lane 1 as the claim requires. -/
theorem c3_counterexample :
    heapPop [((0 : ℚ), (1 : LaneID)), ((0 : ℚ), (2 : LaneID))]
        = some ((0, 2), [(0, 1)]) ∧
      (2 : LaneID) ≠ 1 := by
  exact ⟨by decide, by decide⟩

theorem c3_witness : (1 : LaneID) ≤ 2 :=
  (c3_higher_lane_pops_first [((0 : ℚ), 1), ((0 : ℚ), 2)] 0 2 1 [(0, 1)]
      (by decide) (by decide)).1

theorem pairWithPos_mem {s : ParkingSimState} {v : Vehicle} {map : Map} :
    ∀ {cands : List ParkingSpot} {res : List (ParkingSpot × Position)},
      pairWithPos s v map cands = some res →
      ∀ sp pos, (sp, pos) ∈ res →
        sp ∈ cands ∧ spot_to_driving_pos s sp v map = some pos := by
  intro cands
  induction cands with
  | nil =>
    intro res h sp pos hm
    simp [pairWithPos] at h
    rw [h] at hm
    simp at hm
  | cons c cs ih =>
    intro res h sp pos hm
    unfold pairWithPos at h
    split at h
    case h_1 => simp at h
    case h_2 pc hpc =>
      split at h
      case h_1 => simp at h
      case h_2 tail htail =>
        simp only [Option.some.injEq] at h
        rw [← h] at hm
        rcases List.mem_cons.mp hm with he | hm2
        · have he2 : sp = c ∧ pos = pc := by
            constructor
            · exact congrArg Prod.fst he
            · exact congrArg Prod.snd he
          rw [he2.1, he2.2]
          exact ⟨List.mem_cons.mpr (Or.inl rfl), hpc⟩
        · have h3 := ih htail sp pos hm2
          exact ⟨List.mem_cons.mpr (Or.inr h3.1), h3.2⟩

theorem pairWithPos_complete {s : ParkingSimState} {v : Vehicle} {map : Map} :
    ∀ {cands : List ParkingSpot} {res : List (ParkingSpot × Position)},
      pairWithPos s v map cands = some res →
      ∀ sp ∈ cands, sp ∈ res.map Prod.fst := by
  intro cands
  induction cands with
  | nil =>
    intro res h sp hm
    simp at hm
  | cons c cs ih =>
    intro res h sp hm
    unfold pairWithPos at h
    split at h
    case h_1 => simp at h
    case h_2 pc hpc =>
      split at h
      case h_1 => simp at h
      case h_2 tail htail =>
        simp only [Option.some.injEq] at h
        rw [← h]
        rcases List.mem_cons.mp hm with he | hm2
        · rw [he]
          simp
        · simp only [List.map_cons]
          exact List.mem_cons.mpr (Or.inr (ih htail sp hm2))

theorem onstreetSpotFilter_sound {s : ParkingSimState} {dp : Position}
    {v : Vehicle} {map : Map} :
    ∀ {spots out : List ParkingSpot},
      onstreetSpotFilter s dp v map spots = some out →
      ∀ sp ∈ out, ∃ pos, spot_to_driving_pos s sp v map = some pos ∧
        dp.dist_along < pos.dist_along := by
  intro spots
  induction spots with
  | nil =>
    intro out h sp hm
    simp [onstreetSpotFilter] at h
    rw [h] at hm
    simp at hm
  | cons sp0 rest ih =>
    intro out h sp hm
    unfold onstreetSpotFilter at h
    split at h
    case h_1 => simp at h
    case h_2 tail htail =>
      split at h
      case isTrue =>
        split at h
        case h_1 => simp at h
        case h_2 pos0 hpos0 =>
          split at h
          case isTrue hlt =>
            simp only [Option.some.injEq] at h
            rw [← h] at hm
            rcases List.mem_cons.mp hm with he | hm2
            · rw [he]
              exact ⟨pos0, hpos0, hlt⟩
            · exact ih htail sp hm2
          case isFalse =>
            simp only [Option.some.injEq] at h
            rw [← h] at hm
            exact ih htail sp hm
      case isFalse =>
        simp only [Option.some.injEq] at h
        rw [← h] at hm
        exact ih htail sp hm

theorem onstreetSpotFilter_subset {s : ParkingSimState} {dp : Position}
    {v : Vehicle} {map : Map} :
    ∀ {spots out : List ParkingSpot},
      onstreetSpotFilter s dp v map spots = some out →
      ∀ sp ∈ out, sp ∈ spots := by
  intro spots
  induction spots with
  | nil =>
    intro out h sp hm
    simp [onstreetSpotFilter] at h
    rw [h] at hm
    simp at hm
  | cons sp0 rest ih =>
    intro out h sp hm
    unfold onstreetSpotFilter at h
    split at h
    case h_1 => simp at h
    case h_2 tail htail =>
      split at h
      case isTrue =>
        split at h
        case h_1 => simp at h
        case h_2 pos0 hpos0 =>
          split at h
          case isTrue =>
            simp only [Option.some.injEq] at h
            rw [← h] at hm
            rcases List.mem_cons.mp hm with he | hm2
            · exact List.mem_cons.mpr (Or.inl he)
            · exact List.mem_cons.mpr (Or.inr (ih htail sp hm2))
          case isFalse =>
            simp only [Option.some.injEq] at h
            rw [← h] at hm
            exact List.mem_cons.mpr (Or.inr (ih htail sp hm))
      case isFalse =>
        simp only [Option.some.injEq] at h
        rw [← h] at hm
        exact List.mem_cons.mpr (Or.inr (ih htail sp hm))

theorem parkingLane_spots_shape (pl : ParkingLane) :
    ∀ sp ∈ pl.spots, ∃ i, sp = ParkingSpot.Onstreet pl.parking_lane i := by
  intro sp hm
  unfold ParkingLane.spots at hm
  obtain ⟨i, hi, he⟩ := List.mem_map.mp hm
  exact ⟨i, he.symm⟩

theorem collectOnstreetLanes_sound {s : ParkingSimState} {dp : Position}
    {v : Vehicle} {map : Map} :
    ∀ {ls : List LaneID} {out : List ParkingSpot},
      collectOnstreetLanes s dp v map ls = some out →
      ∀ sp ∈ out, ∃ pos, spot_to_driving_pos s sp v map = some pos ∧
        dp.dist_along < pos.dist_along := by
  intro ls
  induction ls with
  | nil =>
    intro out h sp hm
    simp [collectOnstreetLanes] at h
    rw [h] at hm
    simp at hm
  | cons l rest ih =>
    intro out h sp hm
    unfold collectOnstreetLanes at h
    split at h
    case h_1 => simp at h
    case h_2 lane hlane =>
      split at h
      case h_1 => simp at h
      case h_2 here hhere =>
        split at h
        case h_1 => simp at h
        case h_2 tail htail =>
          simp only [Option.some.injEq] at h
          rw [← h] at hm
          rcases List.mem_append.mp hm with hm2 | hm2
          · exact onstreetSpotFilter_sound hhere sp hm2
          · exact ih htail sp hm2

theorem collectOnstreetLanes_shape {s : ParkingSimState} {dp : Position}
    {v : Vehicle} {map : Map} :
    ∀ {ls : List LaneID} {out : List ParkingSpot},
      collectOnstreetLanes s dp v map ls = some out →
      ∀ sp ∈ out, ∃ l i, sp = ParkingSpot.Onstreet l i := by
  intro ls
  induction ls with
  | nil =>
    intro out h sp hm
    simp [collectOnstreetLanes] at h
    rw [h] at hm
    simp at hm
  | cons l rest ih =>
    intro out h sp hm
    unfold collectOnstreetLanes at h
    split at h
    case h_1 => simp at h
    case h_2 lane hlane =>
      split at h
      case h_1 => simp at h
      case h_2 here hhere =>
        split at h
        case h_1 => simp at h
        case h_2 tail htail =>
          simp only [Option.some.injEq] at h
          rw [← h] at hm
          rcases List.mem_append.mp hm with hm2 | hm2
          · obtain ⟨i, he⟩ :=
              parkingLane_spots_shape lane sp (onstreetSpotFilter_subset hhere sp hm2)
            exact ⟨lane.parking_lane, i, he⟩
          · exact ih htail sp hm2

theorem collectOffstreet_sound {s : ParkingSimState} {dp : Position}
    {target : BuildingID} {map : Map} :
    ∀ {entries : List (BuildingID × ℚ)} {out : List ParkingSpot},
      collectOffstreet s dp target map entries = some out →
      ∀ sp ∈ out, ∃ b idx d, sp = ParkingSpot.Offstreet b idx ∧
        (b, d) ∈ entries ∧ dp.dist_along < d := by
  intro entries
  induction entries with
  | nil =>
    intro out h sp hm
    simp [collectOffstreet] at h
    rw [h] at hm
    simp at hm
  | cons e rest ih =>
    obtain ⟨b0, d0⟩ := e
    intro out h sp hm
    unfold collectOffstreet at h
    split at h
    case h_1 => simp at h
    case h_2 bb hbb =>
      split at h
      case h_1 => simp at h
      case h_2 tail htail =>
        split at h
        case isTrue =>
          simp only [Option.some.injEq] at h
          rw [← h] at hm
          obtain ⟨b, idx, d, he, hd, hlt⟩ := ih htail sp hm
          exact ⟨b, idx, d, he, List.mem_cons.mpr (Or.inr hd), hlt⟩
        case isFalse =>
          split at h
          case isTrue hlt0 =>
            split at h
            case h_1 => simp at h
            case h_2 n hn =>
              simp only [Option.some.injEq] at h
              rw [← h] at hm
              rcases List.mem_append.mp hm with hm2 | hm2
              · obtain ⟨idx, hidx, he⟩ := List.mem_map.mp hm2
                exact ⟨b0, idx, d0, he.symm,
                  List.mem_cons.mpr (Or.inl rfl), hlt0⟩
              · obtain ⟨b, idx, d, he, hd, hlt⟩ := ih htail sp hm2
                exact ⟨b, idx, d, he, List.mem_cons.mpr (Or.inr hd), hlt⟩
          case isFalse =>
            simp only [Option.some.injEq] at h
            rw [← h] at hm
            obtain ⟨b, idx, d, he, hd, hlt⟩ := ih htail sp hm
            exact ⟨b, idx, d, he, List.mem_cons.mpr (Or.inr hd), hlt⟩

theorem collectOffstreet_private {s : ParkingSimState} {dp : Position}
    {target : BuildingID} {map : Map} :
    ∀ {entries : List (BuildingID × ℚ)} {out : List ParkingSpot},
      collectOffstreet s dp target map entries = some out →
      ∀ b idx, ParkingSpot.Offstreet b idx ∈ out →
      ∀ bb n g, map.get_b b = some bb →
        bb.parking = OffstreetParking.Private n g → b = target := by
  intro entries
  induction entries with
  | nil =>
    intro out h b idx hm
    simp [collectOffstreet] at h
    rw [h] at hm
    simp at hm
  | cons e rest ih =>
    obtain ⟨b0, d0⟩ := e
    intro out h b idx hm bb n g hgb hpriv
    unfold collectOffstreet at h
    split at h
    case h_1 => simp at h
    case h_2 bb0 hbb0 =>
      split at h
      case h_1 => simp at h
      case h_2 tail htail =>
        split at h
        case isTrue =>
          simp only [Option.some.injEq] at h
          rw [← h] at hm
          exact ih htail b idx hm bb n g hgb hpriv
        case isFalse hskip =>
          split at h
          case isTrue =>
            split at h
            case h_1 => simp at h
            case h_2 nn hnn =>
              simp only [Option.some.injEq] at h
              rw [← h] at hm
              rcases List.mem_append.mp hm with hm2 | hm2
              · obtain ⟨idx2, hidx2, he⟩ := List.mem_map.mp hm2
                have hb : b0 = b := by
                  injection he with h1 h2
                subst hb
                rw [hgb] at hbb0
                injection hbb0 with hbb0e
                rw [← hbb0e] at hskip
                rw [hpriv] at hskip
                unfold offstreetSkip at hskip
                simp at hskip
                exact hskip.symm
              · exact ih htail b idx hm2 bb n g hgb hpriv
          case isFalse =>
            simp only [Option.some.injEq] at h
            rw [← h] at hm
            exact ih htail b idx hm bb n g hgb hpriv

theorem collectOffstreet_complete {s : ParkingSimState} {dp : Position}
    {target : BuildingID} {map : Map} :
    ∀ {entries : List (BuildingID × ℚ)} {out : List ParkingSpot},
      collectOffstreet s dp target map entries = some out →
      ∀ b d bb n idx, (b, d) ∈ entries → map.get_b b = some bb →
        offstreetSkip bb.parking b target = false → dp.dist_along < d →
        alookup s.num_spots_per_offstreet b = some n → idx < n →
        is_free s (ParkingSpot.Offstreet b idx) = true →
        ParkingSpot.Offstreet b idx ∈ out := by
  intro entries
  induction entries with
  | nil =>
    intro out h b d bb n idx hmem
    simp at hmem
  | cons e rest ih =>
    obtain ⟨b0, d0⟩ := e
    intro out h b d bb n idx hmem hgb hskip hlt hn hidx hfree
    unfold collectOffstreet at h
    split at h
    case h_1 => simp at h
    case h_2 bb0 hbb0 =>
      split at h
      case h_1 => simp at h
      case h_2 tail htail =>
        rcases List.mem_cons.mp hmem with he | hmem2
        · have hb : b = b0 ∧ d = d0 := by
            constructor
            · exact congrArg Prod.fst he
            · exact congrArg Prod.snd he
          obtain ⟨hb, hd⟩ := hb
          subst hb
          subst hd
          rw [hgb] at hbb0
          injection hbb0 with hbb0e
          subst hbb0e
          rw [hskip] at h
          simp only [Bool.false_eq_true, if_false] at h
          rw [if_pos hlt] at h
          rw [hn] at h
          simp only [Option.some.injEq] at h
          rw [← h]
          apply List.mem_append.mpr
          left
          apply List.mem_map.mpr
          refine ⟨idx, ?_, rfl⟩
          apply List.mem_filter.mpr
          exact ⟨List.mem_range.mpr hidx, hfree⟩
        · have hout : tail ⊆ out := by
            intro x hx
            split at h
            case isTrue =>
              simp only [Option.some.injEq] at h
              rw [← h]
              exact hx
            case isFalse =>
              split at h
              case isTrue =>
                split at h
                case h_1 => simp at h
                case h_2 nn hnn =>
                  simp only [Option.some.injEq] at h
                  rw [← h]
                  exact List.mem_append.mpr (Or.inr hx)
              case isFalse =>
                simp only [Option.some.injEq] at h
                rw [← h]
                exact hx
          exact hout (ih htail b d bb n idx hmem2 hgb hskip hlt hn hidx hfree)

theorem collectLots_sound {s : ParkingSimState} {dp : Position} {map : Map} :
    ∀ {pls : List ParkingLotID} {out : List ParkingSpot},
      collectLots s dp map pls = some out →
      ∀ sp ∈ out, ∃ pl idx plot, sp = ParkingSpot.Lot pl idx ∧
        map.get_pl pl = some plot ∧
        dp.dist_along < plot.driving_pos.dist_along := by
  intro pls
  induction pls with
  | nil =>
    intro out h sp hm
    simp [collectLots] at h
    rw [h] at hm
    simp at hm
  | cons pl0 rest ih =>
    intro out h sp hm
    unfold collectLots at h
    split at h
    case h_1 => simp at h
    case h_2 plot0 hplot0 =>
      split at h
      case h_1 => simp at h
      case h_2 tail htail =>
        split at h
        case isTrue hlt0 =>
          split at h
          case h_1 => simp at h
          case h_2 n hn =>
            simp only [Option.some.injEq] at h
            rw [← h] at hm
            rcases List.mem_append.mp hm with hm2 | hm2
            · obtain ⟨idx, hidx, he⟩ := List.mem_map.mp hm2
              exact ⟨pl0, idx, plot0, he.symm, hplot0, hlt0⟩
            · exact ih htail sp hm2
        case isFalse =>
          simp only [Option.some.injEq] at h
          rw [← h] at hm
          exact ih htail sp hm

theorem collectLots_complete {s : ParkingSimState} {dp : Position} {map : Map} :
    ∀ {pls : List ParkingLotID} {out : List ParkingSpot},
      collectLots s dp map pls = some out →
      ∀ pl plot n idx, pl ∈ pls → map.get_pl pl = some plot →
        dp.dist_along < plot.driving_pos.dist_along →
        alookup s.num_spots_per_lot pl = some n → idx < n →
        is_free s (ParkingSpot.Lot pl idx) = true →
        ParkingSpot.Lot pl idx ∈ out := by
  intro pls
  induction pls with
  | nil =>
    intro out h pl plot n idx hmem
    simp at hmem
  | cons pl0 rest ih =>
    intro out h pl plot n idx hmem hgpl hlt hn hidx hfree
    unfold collectLots at h
    split at h
    case h_1 => simp at h
    case h_2 plot0 hplot0 =>
      split at h
      case h_1 => simp at h
      case h_2 tail htail =>
        rcases List.mem_cons.mp hmem with he | hmem2
        · subst he
          rw [hgpl] at hplot0
          injection hplot0 with hplote
          subst hplote
          rw [if_pos hlt] at h
          rw [hn] at h
          simp only [Option.some.injEq] at h
          rw [← h]
          apply List.mem_append.mpr
          left
          apply List.mem_map.mpr
          refine ⟨idx, ?_, rfl⟩
          apply List.mem_filter.mpr
          exact ⟨List.mem_range.mpr hidx, hfree⟩
        · have hout : tail ⊆ out := by
            intro x hx
            split at h
            case isTrue =>
              split at h
              case h_1 => simp at h
              case h_2 nn hnn =>
                simp only [Option.some.injEq] at h
                rw [← h]
                exact List.mem_append.mpr (Or.inr hx)
            case isFalse =>
              simp only [Option.some.injEq] at h
              rw [← h]
              exact hx
          exact hout (ih htail pl plot n idx hmem2 hgpl hlt hn hidx hfree)

theorem gafs_eq {s : ParkingSimState} {dp : Position} {v : Vehicle}
    {target : BuildingID} {map : Map} {res : List (ParkingSpot × Position)}
    (h : get_all_free_spots s dp v target map = some res) :
    ∃ onOut offOut lotOut,
      collectOnstreetLanes s dp v map
          (mmGet s.driving_to_parking_lanes dp.lane) = some onOut ∧
      collectOffstreet s dp target map
          (mmGet s.driving_to_offstreet dp.lane) = some offOut ∧
      collectLots s dp map (mmGet s.driving_to_lots dp.lane) = some lotOut ∧
      pairWithPos s v map (onOut ++ offOut ++ lotOut) = some res := by
  unfold get_all_free_spots at h
  split at h
  case h_1 => simp at h
  case h_2 onOut hon =>
    split at h
    case h_1 => simp at h
    case h_2 offOut hoff =>
      split at h
      case h_1 => simp at h
      case h_2 lotOut hlot =>
        exact ⟨onOut, offOut, lotOut, hon, hoff, hlot, h⟩

theorem gafs_ahead {s : ParkingSimState} {dp : Position} {v : Vehicle}
    {target : BuildingID} {map : Map} {res : List (ParkingSpot × Position)}
    (hoff : ∀ b d, (b, d) ∈ mmGet s.driving_to_offstreet dp.lane →
      ∃ bb, map.get_b b = some bb ∧
        ∃ qq, bb.driving_connection = some qq ∧ qq.dist_along = d)
    (h : get_all_free_spots s dp v target map = some res) :
    ∀ sp pos, (sp, pos) ∈ res → dp.dist_along < pos.dist_along := by
  obtain ⟨onOut, offOut, lotOut, hon, hoffc, hlot, hpair⟩ := gafs_eq h
  intro sp pos hm
  obtain ⟨hcand, hpos⟩ := pairWithPos_mem hpair sp pos hm
  rcases List.mem_append.mp hcand with hc | hc
  · rcases List.mem_append.mp hc with hc2 | hc2
    · obtain ⟨pos2, hpos2, hlt⟩ := collectOnstreetLanes_sound hon sp hc2
      rw [hpos2] at hpos
      injection hpos with hpe
      rw [← hpe]
      exact hlt
    · obtain ⟨b, idx, d, he, hd, hlt⟩ := collectOffstreet_sound hoffc sp hc2
      obtain ⟨bb, hgb, qq, hconn, hqd⟩ := hoff b d hd
      subst he
      simp only [spot_to_driving_pos, hgb, hconn] at hpos
      injection hpos with hpe
      rw [← hpe, hqd]
      exact hlt
  · obtain ⟨pl, idx, plot, he, hgpl, hlt⟩ := collectLots_sound hlot sp hc
    subst he
    simp only [spot_to_driving_pos, hgpl, Option.map_some] at hpos
    injection hpos with hpe
    rw [← hpe]
    exact hlt

theorem minByKey_foldl_mem {α : Type} (f : α → ℚ) :
    ∀ (as : List α) (a : α),
      as.foldl (fun best y => if f y < f best then y else best) a ∈ a :: as := by
  intro as
  induction as with
  | nil => intro a; simp
  | cons y ys ih =>
    intro a
    rw [List.foldl_cons]
    rcases List.mem_cons.mp (ih (if f y < f a then y else a)) with he | hm
    · rw [he]
      by_cases hc : f y < f a
      · rw [if_pos hc]
        exact List.mem_cons.mpr (Or.inr (List.mem_cons.mpr (Or.inl rfl)))
      · rw [if_neg hc]
        exact List.mem_cons.mpr (Or.inl rfl)
    · exact List.mem_cons.mpr (Or.inr (List.mem_cons.mpr (Or.inr hm)))

theorem minByKey_mem {α : Type} {f : α → ℚ} {l : List α} {x : α}
    (h : minByKey f l = some x) : x ∈ l := by
  cases l with
  | nil => simp [minByKey] at h
  | cons a as =>
    simp only [minByKey, Option.some.injEq] at h
    rw [← h]
    exact minByKey_foldl_mem f as a

theorem searchLoop_pos {s : ParkingSimState} {v : Vehicle}
    {target : BuildingID} {map : Map} {start : LaneID}
    (hoff : ∀ lane b d, (b, d) ∈ mmGet s.driving_to_offstreet lane →
      ∃ bb, map.get_b b = some bb ∧
        ∃ qq, bb.driving_connection = some qq ∧ qq.dist_along = d) :
    ∀ (fuel : Nat) (br : List (LaneID × TurnID)) (q : List (ℚ × LaneID))
      (r : List PathStep × ParkingSpot × Position),
      searchLoop s v target map start fuel br q = some (some r) →
      0 < r.2.2.dist_along := by
  intro fuel
  induction fuel with
  | zero =>
    intro br q r h
    simp [searchLoop] at h
  | succ n ih =>
    intro br q r h
    unfold searchLoop at h
    split at h
    · simp at h
    · rename_i dist cur q2 hpop
      dsimp only at h
      split at h
      · simp at h
      · rename_i spot pos hfound
        split at h
        · simp at h
        · rename_i steps hsteps
          simp only [Option.some.injEq] at h
          rw [← h]
          split at hfound
          · simp at hfound
          · rename_i hne
            split at hfound
            · simp at hfound
            · rename_i lst hlst
              simp only [Option.some.injEq] at hfound
              exact gafs_ahead (fun b d hm => hoff cur b d hm) hlst spot pos
                (minByKey_mem hfound)
      · split at h
        · simp at h
        · rename_i br2 q3 hexp
          exact ih br2 q3 r h

/-- C5: every `(spot, position)` pair returned by `get_all_free_spots` has
its projected driving position strictly ahead of the querying driving
position, and consequently the position returned by
`path_to_free_parking_spot` (which queries from the start of each popped
lane) is strictly ahead of that lane start.  The hypothesis says the cached
offstreet distances agree with the buildings' driving connections, which
`ParkingSimState.new` guarantees by construction. -/
theorem c5_spots_strictly_ahead (s : ParkingSimState) (v : Vehicle)
    (target : BuildingID) (map : Map)
    (hoff : ∀ lane b d, (b, d) ∈ mmGet s.driving_to_offstreet lane →
      ∃ bb, map.get_b b = some bb ∧
        ∃ qq, bb.driving_connection = some qq ∧ qq.dist_along = d) :
    (∀ dp res, get_all_free_spots s dp v target map = some res →
      ∀ sp pos, (sp, pos) ∈ res → dp.dist_along < pos.dist_along) ∧
    (∀ start r, path_to_free_parking_spot s start v target map = some (some r) →
      0 < r.2.2.dist_along) := by
  constructor
  · intro dp res h sp pos hm
    exact gafs_ahead (fun b d hm2 => hoff dp.lane b d hm2) h sp pos hm
  · intro start r h
    exact searchLoop_pos hoff _ _ _ r h

theorem c5_witness :
    ({ lane := 0, dist_along := 1 } : Position).dist_along
      < ({ lane := 0, dist_along := 6 } : Position).dist_along :=
  (c5_spots_strictly_ahead sWLot vehW 99 mapWSearch
      (by
        intro lane b d hm
        simp [sWLot, sWSearch, mmGet] at hm)).1
    { lane := 0, dist_along := 1 }
    [(ParkingSpot.Lot 1 0, { lane := 0, dist_along := 6 })] (by decide)
    (ParkingSpot.Lot 1 0) { lane := 0, dist_along := 6 } (by simp)

/-- C8: `get_all_free_spots` never returns an offstreet spot of a building
with `Private` parking unless the target building is that building; and
free offstreet spots of non-private buildings and free lot spots attached
to the queried lane are always returned, subject only to the free and
strictly-ahead-of-position filters. -/
theorem c8_private_offstreet_filter (s : ParkingSimState) (dp : Position)
    (v : Vehicle) (target : BuildingID) (map : Map)
    (res : List (ParkingSpot × Position))
    (h : get_all_free_spots s dp v target map = some res) :
    (∀ b idx pos bb n g, (ParkingSpot.Offstreet b idx, pos) ∈ res →
      map.get_b b = some bb → bb.parking = OffstreetParking.Private n g →
      b = target) ∧
    (∀ b d bb n idx, (b, d) ∈ mmGet s.driving_to_offstreet dp.lane →
      map.get_b b = some bb →
      (∀ m2 g, bb.parking ≠ OffstreetParking.Private m2 g) →
      dp.dist_along < d → alookup s.num_spots_per_offstreet b = some n →
      idx < n → is_free s (ParkingSpot.Offstreet b idx) = true →
      ParkingSpot.Offstreet b idx ∈ res.map Prod.fst) ∧
    (∀ pl plot n idx, pl ∈ mmGet s.driving_to_lots dp.lane →
      map.get_pl pl = some plot →
      dp.dist_along < plot.driving_pos.dist_along →
      alookup s.num_spots_per_lot pl = some n → idx < n →
      is_free s (ParkingSpot.Lot pl idx) = true →
      ParkingSpot.Lot pl idx ∈ res.map Prod.fst) := by
  obtain ⟨onOut, offOut, lotOut, hon, hoffc, hlot, hpair⟩ := gafs_eq h
  refine ⟨?_, ?_, ?_⟩
  · intro b idx pos bb n g hm hgb hpriv
    obtain ⟨hcand, hpos⟩ := pairWithPos_mem hpair _ pos hm
    rcases List.mem_append.mp hcand with hc | hc
    · rcases List.mem_append.mp hc with hc2 | hc2
      · obtain ⟨l, i, he⟩ := collectOnstreetLanes_shape hon _ hc2
        simp at he
      · exact collectOffstreet_private hoffc b idx hc2 bb n g hgb hpriv
    · obtain ⟨pl, i, plot, he, hgpl, hlt⟩ := collectLots_sound hlot _ hc
      simp at he
  · intro b d bb n idx hmem hgb hpub hlt hn hidx hfree
    have hskip : offstreetSkip bb.parking b target = false := by
      unfold offstreetSkip
      cases hp : bb.parking with
      | PublicGarage m => rfl
      | Private m g => exact absurd hp (hpub m g)
    have hin := collectOffstreet_complete hoffc b d bb n idx hmem hgb hskip
      hlt hn hidx hfree
    exact pairWithPos_complete hpair _
      (List.mem_append.mpr (Or.inl (List.mem_append.mpr (Or.inr hin))))
  · intro pl plot n idx hmem hgpl hlt hn hidx hfree
    have hin := collectLots_complete hlot pl plot n idx hmem hgpl hlt hn
      hidx hfree
    exact pairWithPos_complete hpair _ (List.mem_append.mpr (Or.inr hin))

theorem c8_witness :
    ParkingSpot.Offstreet 0 0 ∈ resW8.map Prod.fst ∧
      ParkingSpot.Lot 1 0 ∈ resW8.map Prod.fst := by
  have h := c8_private_offstreet_filter sWSearch
    { lane := 0, dist_along := 1 } vehW 99 mapWSearch resW8 (by decide)
  constructor
  · refine h.2.1 0 5
      { id := 0, parking := OffstreetParking.PublicGarage 1
        driving_connection := some { lane := 0, dist_along := 5 }
        sidewalk_pos := { lane := 0, dist_along := 5 } } 1 0
      (by decide) (by decide) ?_ (by norm_num) (by decide) (by decide) (by decide)
    intro m2 g hp
    simp at hp
  · exact h.2.2 1
      { id := 1, capacity := 1
        driving_pos := { lane := 0, dist_along := 6 }
        sidewalk_pos := { lane := 0, dist_along := 6 } } 1 0
      (by decide) (by decide) (by norm_num) (by decide) (by decide) (by decide)
